import Mathlib

/-!
Shallow embedding of the core logic of `src/app.py` (vertex-ai-search-proxy):
configuration building, GCS URI parsing, result normalization, metadata
enrichment and response assembly, together with theorems settling the
specification claims about them.
-/

set_option maxHeartbeats 1000000

namespace VSearch

/-! ## Semi-structured values

A `SVal` models one Python value inside a result's `derived_struct_data`
map (strings, numbers, lists, dicts, None).  Subscripting a non-dict or a
dict without the key raises in Python; here it yields `none`. -/

inductive SVal : Type where
  | null : SVal
  | str (s : String) : SVal
  | num (n : Int) : SVal
  | arr (xs : List SVal) : SVal
  | obj (fields : List (String × SVal)) : SVal

/-- One raw result entry's `document.derived_struct_data` map. -/
abbrev RawData : Type := List (String × SVal)

/-- Python `data[k]` on a dict-like map: the first binding of `k`, or
failure (`KeyError`) when absent. -/
def lookup (data : RawData) (k : String) : Option SVal :=
  (data.find? (fun p => p.1 == k)).map Prod.snd

/-- Python subscripting `v[k]` with a string key: succeeds only on a dict
containing `k`; on any other value it raises (`TypeError` / `KeyError`),
modelled as `none`. -/
def svGet : SVal → String → Option SVal
  | SVal.obj fs, k => (fs.find? (fun p => p.1 == k)).map Prod.snd
  | _, _ => none

/-- Python `for x in v`: lists iterate their elements, strings iterate
their characters (as one-character strings), dicts iterate their keys;
numbers and `None` raise `TypeError`. -/
def iterElems : SVal → Option (List SVal)
  | SVal.arr xs => some xs
  | SVal.str s => some (s.data.map (fun c => SVal.str (String.mk [c])))
  | SVal.obj fs => some (fs.map (fun p => SVal.str p.1))
  | SVal.num _ => none
  | SVal.null => none

/-- Sequential loop that appends `f x` for each element and aborts the
whole computation on the first failure — the exception behaviour of the
Python `for` loops in `extract_snippets`, `extract_answers_segments` and
the `search` handler body. -/
def mapO : List α → (α → Option β) → Option (List β)
  | [], _ => some []
  | x :: xs, f =>
    match f x with
    | none => none
    | some y => (mapO xs f).map (fun ys => y :: ys)

/-! ## Pydantic models (`ExtractiveAnswer`/`ExtractiveSegment` share one
shape, called `ExtractiveSpan` as in the spec's data model) -/

structure ExtractiveSpan : Type where
  content : Option String
  page_number : Option Int
deriving DecidableEq

structure Metadata : Type where
  key : Option String
  value : Option String
deriving DecidableEq

structure Document : Type where
  title : Option String
  link : Option String
  snippets : Option (List String)
  extractive_answers : Option (List ExtractiveSpan)
  extractive_segments : Option (List ExtractiveSpan)
  metadata : Option (List Metadata)
deriving DecidableEq

structure Response : Type where
  summary : Option String
  documents : Option (List Document)
deriving DecidableEq

/-- Pydantic validation of a `str | None` field fed a raw Python value:
absent or `None` become `None`; a string passes; anything else raises
`ValidationError` (`none`). -/
def validStrOpt : Option SVal → Option (Option String)
  | none => some none
  | some SVal.null => some none
  | some (SVal.str s) => some (some s)
  | some _ => none

/-- Pydantic validation of an `int | None` field. -/
def validIntOpt : Option SVal → Option (Option Int)
  | none => some none
  | some SVal.null => some none
  | some (SVal.num n) => some (some n)
  | some _ => none

/-- An element of a `list[str]` field must be a string. -/
def strOnly : SVal → Option String
  | SVal.str s => some s
  | _ => none

/-- Pydantic validation of a `list[str] | None` field fed a raw list. -/
def validStrList : Option (List SVal) → Option (Option (List String))
  | none => some none
  | some xs => (mapO xs strOnly).map some

/-! ## parse_gcs_uri

`re.match(r"^gs://(?P<bucket>[^/]+)/(?P<name>.*)$", uri)` in Python
semantics: `[^/]+` takes the (nonempty) run up to the first slash after
the literal scheme; `.` does not match a newline; `$` matches at the end
of the string or just before one final trailing newline. -/

/-- Split off the maximal slash-free run before the first `'/'`
(the `[^/]+/` part of the pattern); fails when no slash occurs. -/
def splitAtSlash : List Char → Option (List Char × List Char)
  | [] => none
  | c :: cs =>
    if c = '/' then some ([], cs)
    else (splitAtSlash cs).map (fun p => (c :: p.1, p.2))

/-- The `.*$` part of the pattern against the remainder: succeeds exactly
when every newline in the remainder is a single final one, which is then
not captured. -/
def dropFinalNewline : List Char → Option (List Char)
  | [] => some []
  | c :: cs =>
    if c = '\n' then (if cs = [] then some [] else none)
    else (dropFinalNewline cs).map (fun n => c :: n)

/-- The characters of the literal scheme part of the URI pattern. -/
def gsScheme : List Char := ['g', 's', ':', '/', '/']

/-- The pattern after the anchored literal scheme: `[^/]+/` then `.*$`. -/
def parseAfterScheme (rest : List Char) : Option (List Char × List Char) :=
  match splitAtSlash rest with
  | none => none
  | some (b, r) =>
    if b = [] then none
    else (dropFinalNewline r).map (fun n => (b, n))

def parseGcsChars (cs : List Char) : Option (List Char × List Char) :=
  match cs with
  | c1 :: c2 :: c3 :: c4 :: c5 :: rest =>
    if [c1, c2, c3, c4, c5] = gsScheme then parseAfterScheme rest else none
  | _ => none

/-- `parse_gcs_uri` of `src/app.py`: returns `(bucket, name)` on a match,
`none` for the raised `ValueError`. -/
def parse_gcs_uri (uri : String) : Option (String × String) :=
  (parseGcsChars uri.data).map (fun p => (String.mk p.1, String.mk p.2))

/-! ## Metadata enrichment -/

/-- The object-storage collaborator: maps `(bucket, object-key)` to the
blob's metadata key/value pairs in native order, or `none` for any
failure (object not found, no metadata on the blob, access error). -/
abbrev Storage : Type := String → String → Option (List (String × String))

/-- `get_metadata` of `src/app.py`: parse the URI, look the blob up, and
project its metadata map to a list of `Metadata` pairs; any raised
exception is `none`. -/
def get_metadata (stor : Storage) (uri : String) : Option (List Metadata) :=
  match parse_gcs_uri uri with
  | none => none
  | some (b, n) =>
    match stor b n with
    | none => none
    | some kvs => some (kvs.map (fun kv => { key := some kv.1, value := some kv.2 }))

/-- The `try: metadata = get_metadata(link) except: metadata = None` step
of the handler, applied to the raw looked-up `link` value: a missing or
non-string link makes `re.match` raise `TypeError`, caught to `none`. -/
def tryGetMetadata (stor : Storage) (link : Option SVal) : Option (List Metadata) :=
  match link with
  | some (SVal.str s) => get_metadata stor s
  | _ => none

/-! ## Field extraction -/

/-- `extract_snippets` of `src/app.py`, wrapped in the handler's
`try/except`: iterate `data["snippets"]` and collect each sub-entry's
`"snippet"` value; any raised exception resolves the field to `none`. -/
def extract_snippets (data : RawData) : Option (List SVal) :=
  match lookup data "snippets" with
  | none => none
  | some v =>
    match iterElems v with
    | none => none
    | some elems => mapO elems (fun e => svGet e "snippet")

/-- Construction of `ExtractiveAnswer`/`ExtractiveSegment` inside the
loop of `extract_answers_segments`: `content` and `pageNumber` are each
looked up under their own `try/except` (absence gives `None`), then
pydantic validates the two optional fields. -/
def mkSpan (content pageNum : Option SVal) : Option ExtractiveSpan :=
  match validStrOpt content, validIntOpt pageNum with
  | some c, some p => some { content := c, page_number := p }
  | _, _ => none

/-- `extract_answers_segments` of `src/app.py`, wrapped in the handler's
`try/except`: iterate `data[field]`, keep every sub-entry as a span with
independently-extracted members; any raised exception (missing field,
non-iterable value, ill-typed member) resolves the field to `none`.
The source builds `ExtractiveAnswer` or `ExtractiveSegment` depending on
`field`; the two classes have identical fields, modelled by the single
`ExtractiveSpan`. -/
def extract_answers_segments (data : RawData) (field : String) : Option (List ExtractiveSpan) :=
  match lookup data field with
  | none => none
  | some v =>
    match iterElems v with
    | none => none
    | some elems => mapO elems (fun e => mkSpan (svGet e "content") (svGet e "pageNumber"))

/-! ## Per-result normalization and the handler -/

/-- The body of the handler's `for result in pager.results` loop: the six
independently `try/except`-guarded extractions followed by the pydantic
`Document(...)` construction; `none` models an uncaught
`ValidationError`. -/
def normalizeResult (stor : Storage) (data : RawData) : Option Document :=
  match validStrOpt (lookup data "title"), validStrOpt (lookup data "link"),
        validStrList (extract_snippets data) with
  | some t, some l, some s =>
    some { title := t, link := l, snippets := s,
           extractive_answers := extract_answers_segments data "extractive_answers",
           extractive_segments := extract_answers_segments data "extractive_segments",
           metadata := tryGetMetadata stor (lookup data "link") }
  | _, _, _ => none

/-- The `search` handler of `src/app.py` after the external call:
normalize every raw result in order, then assemble the response from the
summary outcome (`some s` when `pager.summary.summary_text` yields `s`,
`none` when accessing it raises, mapped to `None` by the `try/except`).
`none` overall models an uncaught exception (server error). -/
def search (stor : Storage) (results : List RawData) (summaryOutcome : Option String) :
    Option Response :=
  match mapO results (normalizeResult stor) with
  | none => none
  | some docs => some { summary := summaryOutcome, documents := some docs }

/-! ## Query configuration builder -/

/-- The search configuration assembled from the module-level
`content_search_spec` and the `SearchRequest` built inside `search`. -/
structure SearchConfig : Type where
  query : String
  language_code : String
  model_version : String
  summary_result_count : Nat
  include_citations : Bool
  ignore_adversarial_query : Bool
  ignore_non_summary_seeking_query : Bool
  return_snippet : Bool
  return_extractive_segment_score : Bool
  max_extractive_answer_count : Nat
  max_extractive_segment_count : Nat
  num_previous_segments : Nat
  num_next_segments : Nat
  page_size : Nat
  query_expansion_auto : Bool
  spell_correction_auto : Bool
deriving DecidableEq

/-- The configuration `src/app.py` builds for a request: every tunable is
a fixed constant except the extractive counts, which are
`5*int(enable_flag)` from the two environment toggles. -/
def buildSearchConfig (ea es : Bool) (query : String) : SearchConfig :=
  { query := query
    language_code := "es"
    model_version := "preview"
    summary_result_count := 5
    include_citations := false
    ignore_adversarial_query := true
    ignore_non_summary_seeking_query := true
    return_snippet := true
    return_extractive_segment_score := true
    max_extractive_answer_count := 5 * (if ea then 1 else 0)
    max_extractive_segment_count := 5 * (if es then 1 else 0)
    num_previous_segments := 0
    num_next_segments := 0
    page_size := 10
    query_expansion_auto := true
    spell_correction_auto := true }

/-- Modelled from the spec: the default table of section 4.1 that claim C1
asserts the built configuration matches. -/
def specDefaultTable (c : SearchConfig) : Prop :=
  c.summary_result_count = 3 ∧ c.include_citations = false ∧
  c.ignore_adversarial_query = true ∧ c.ignore_non_summary_seeking_query = true ∧
  c.return_snippet = true ∧ c.return_extractive_segment_score = true ∧
  c.max_extractive_answer_count = 3 ∧ c.max_extractive_segment_count = 3 ∧
  c.num_previous_segments = 0 ∧ c.num_next_segments = 0 ∧ c.page_size = 3

/-! ## Concrete builders used in the claim statements -/

/-- A well-formed snippets sub-entry carrying text `s`. -/
def snippetEntry (s : String) : SVal := SVal.obj [("snippet", SVal.str s)]

/-- A well-formed extractive sub-entry holding an optional content string
and an optional page number, encoded under the source keys. -/
def spanEntry (cp : Option String × Option Int) : SVal :=
  SVal.obj
    ((match cp.1 with
      | some s => [("content", SVal.str s)]
      | none => []) ++
     (match cp.2 with
      | some m => [("pageNumber", SVal.num m)]
      | none => []))

/-- The span such a sub-entry denotes. -/
def toSpan (cp : Option String × Option Int) : ExtractiveSpan :=
  { content := cp.1, page_number := cp.2 }

/-- A field binding that is present or entirely missing from the map. -/
def optField (k : String) (v : Option SVal) : RawData :=
  match v with
  | some x => [(k, x)]
  | none => []

/-- A raw result entry carrying an arbitrary subset of the five derived
fields, each present field well-formed. -/
def wfEntry (title link : Option String) (snips : Option (List String))
    (ans segs : Option (List (Option String × Option Int))) : RawData :=
  optField "title" (title.map SVal.str) ++
  optField "link" (link.map SVal.str) ++
  optField "snippets" (snips.map (fun l => SVal.arr (l.map snippetEntry))) ++
  optField "extractive_answers" (ans.map (fun l => SVal.arr (l.map spanEntry))) ++
  optField "extractive_segments" (segs.map (fun l => SVal.arr (l.map spanEntry)))

/-- A storage collaborator on which every lookup fails. -/
def stor0 : Storage := fun _ _ => none

/-- A raw entry carrying only a title. -/
def entry0 : RawData := [("title", SVal.str "t")]

/-- The document `entry0` normalizes to. -/
def doc0 : Document :=
  { title := some "t", link := none, snippets := none,
    extractive_answers := none, extractive_segments := none, metadata := none }

/-- A well-formed snippets collection whose second sub-entry lacks the
`"snippet"` key. -/
def exC4 : RawData := [("snippets", SVal.arr [snippetEntry "a", SVal.obj []])]

/-- A document with its metadata field erased, for stating that the other
five fields do not depend on the storage collaborator. -/
def stripMeta (d : Document) : Document := { d with metadata := none }

/-! ## Helper lemmas about the loop combinator and map lookup -/

theorem mapO_map_some {α β γ : Type} (g : α → β) (f : β → Option γ) (h : α → γ)
    (hp : ∀ a, f (g a) = some (h a)) (l : List α) :
    mapO (l.map g) f = some (l.map h) := by
  induction l with
  | nil => rfl
  | cons x xs ih => simp [mapO, hp x, ih]

theorem mapO_length {α β : Type} (f : α → Option β) :
    ∀ (xs : List α) (ys : List β), mapO xs f = some ys → ys.length = xs.length := by
  intro xs
  induction xs with
  | nil => intro ys h; simp [mapO] at h; simp [← h]
  | cons x xs ih =>
    intro ys h
    cases hfx : f x with
    | none => rw [mapO, hfx] at h; cases h
    | some y =>
      rw [mapO, hfx] at h
      cases hrest : mapO xs f with
      | none => rw [hrest] at h; cases h
      | some zs =>
        rw [hrest] at h
        simp at h
        simp [← h, ih zs hrest]

theorem mapO_get {α β : Type} (f : α → Option β) :
    ∀ (xs : List α) (ys : List β), mapO xs f = some ys →
      ∀ (i : Nat) (hx : i < xs.length) (hy : i < ys.length),
        f (xs.get ⟨i, hx⟩) = some (ys.get ⟨i, hy⟩) := by
  intro xs
  induction xs with
  | nil => intro ys h i hx hy; cases hx
  | cons x xs ih =>
    intro ys h i hx hy
    cases hfx : f x with
    | none => rw [mapO, hfx] at h; cases h
    | some y =>
      rw [mapO, hfx] at h
      cases hrest : mapO xs f with
      | none => rw [hrest] at h; cases h
      | some zs =>
        rw [hrest] at h
        simp at h
        subst h
        cases i with
        | zero => simpa using hfx
        | succ j =>
          have hx' : j < xs.length := Nat.lt_of_succ_lt_succ hx
          have hy' : j < zs.length := Nat.lt_of_succ_lt_succ hy
          simpa using ih zs hrest j hx' hy'

theorem mapO_none_of_mem {α β : Type} (f : α → Option β) {x : α} :
    ∀ {xs : List α}, x ∈ xs → f x = none → mapO xs f = none := by
  intro xs hmem hfx
  induction xs with
  | nil => cases hmem
  | cons z zs ih =>
    cases hmem with
    | head => simp [mapO, hfx]
    | tail _ htail =>
      rw [mapO]
      cases hfz : f z with
      | none => rfl
      | some y => simp [ih htail]

theorem lookup_cons (k' : String) (v : SVal) (d : RawData) (k : String) :
    lookup ((k', v) :: d) k = if (k' == k) then some v else lookup d k := by
  by_cases h : (k' == k) = true
  · simp [lookup, List.find?_cons_of_pos, h]
  · simp only [Bool.not_eq_true] at h
    simp [lookup, List.find?_cons_of_neg, h]

theorem lookup_optField_pos (k : String) (v : Option SVal) (d : RawData) :
    lookup (optField k v ++ d) k =
      match v with
      | some x => some x
      | none => lookup d k := by
  cases v <;> simp [optField, lookup_cons]

theorem lookup_optField_neg (k' : String) (v : Option SVal) (d : RawData) (k : String)
    (h : (k' == k) = false) :
    lookup (optField k' v ++ d) k = lookup d k := by
  cases v <;> simp [optField, lookup_cons, h]

theorem mkSpan_spanEntry (cp : Option String × Option Int) :
    mkSpan (svGet (spanEntry cp) "content") (svGet (spanEntry cp) "pageNumber") =
      some (toSpan cp) := by
  obtain ⟨c, p⟩ := cp
  cases c <;> cases p <;> rfl

/-! ## Characterization of the URI pattern match -/

theorem splitAtSlash_sound :
    ∀ (cs b r : List Char), splitAtSlash cs = some (b, r) → '/' ∉ b ∧ cs = b ++ '/' :: r := by
  intro cs
  induction cs with
  | nil => intro b r h; cases h
  | cons c cs ih =>
    intro b r h
    by_cases hc : c = '/'
    · subst hc
      rw [splitAtSlash, if_pos rfl] at h
      injection h with h
      injection h with h1 h2
      subst h1; subst h2
      simp
    · rw [splitAtSlash, if_neg hc] at h
      cases hs : splitAtSlash cs with
      | none => rw [hs] at h; cases h
      | some p =>
        obtain ⟨b', r'⟩ := p
        rw [hs] at h
        injection h with h
        injection h with h1 h2
        subst h1
        obtain ⟨hmem, heq⟩ := ih b' r' hs
        refine ⟨?_, by simp [heq]; exact h2⟩
        intro hin
        cases hin with
        | head => exact hc rfl
        | tail _ ht => exact hmem ht

theorem splitAtSlash_complete :
    ∀ (b r : List Char), '/' ∉ b → splitAtSlash (b ++ '/' :: r) = some (b, r) := by
  intro b
  induction b with
  | nil => intro r _; simp [splitAtSlash]
  | cons c b ih =>
    intro r h
    have hc : c ≠ '/' := fun hh => h (hh ▸ List.mem_cons_self c b)
    have hb : '/' ∉ b := fun hh => h (List.mem_cons_of_mem c hh)
    simp [List.cons_append, splitAtSlash, if_neg hc, ih r hb]

theorem dropFinalNewline_sound :
    ∀ (r n : List Char), dropFinalNewline r = some n → '\n' ∉ n ∧ (r = n ∨ r = n ++ ['\n']) := by
  intro r
  induction r with
  | nil =>
    intro n h
    rw [dropFinalNewline] at h
    injection h with h
    subst h
    simp
  | cons c cs ih =>
    intro n h
    by_cases hc : c = '\n'
    · subst hc
      rw [dropFinalNewline, if_pos rfl] at h
      by_cases hcs : cs = []
      · rw [if_pos hcs] at h
        injection h with h
        subst h
        subst hcs
        simp
      · rw [if_neg hcs] at h; cases h
    · rw [dropFinalNewline, if_neg hc] at h
      cases hd : dropFinalNewline cs with
      | none => rw [hd] at h; cases h
      | some n' =>
        rw [hd] at h
        injection h with h
        subst h
        obtain ⟨hmem, hcase⟩ := ih n' hd
        refine ⟨?_, ?_⟩
        · intro hin
          cases hin with
          | head => exact hc rfl
          | tail _ ht => exact hmem ht
        · cases hcase with
          | inl he => exact Or.inl (by rw [he])
          | inr he => exact Or.inr (by rw [he]; rfl)

theorem dropFinalNewline_of_no_newline :
    ∀ (n : List Char), '\n' ∉ n → dropFinalNewline n = some n := by
  intro n
  induction n with
  | nil => intro _; rfl
  | cons c cs ih =>
    intro h
    have hc : c ≠ '\n' := fun hh => h (hh ▸ List.mem_cons_self c cs)
    have hcs : '\n' ∉ cs := fun hh => h (List.mem_cons_of_mem c hh)
    simp [dropFinalNewline, if_neg hc, ih hcs]

theorem dropFinalNewline_trailing :
    ∀ (n : List Char), '\n' ∉ n → dropFinalNewline (n ++ ['\n']) = some n := by
  intro n
  induction n with
  | nil => intro _; rfl
  | cons c cs ih =>
    intro h
    have hc : c ≠ '\n' := fun hh => h (hh ▸ List.mem_cons_self c cs)
    have hcs : '\n' ∉ cs := fun hh => h (List.mem_cons_of_mem c hh)
    simp [List.cons_append, dropFinalNewline, if_neg hc, ih hcs]

theorem parseAfterScheme_iff (rest b n : List Char) :
    parseAfterScheme rest = some (b, n) ↔
      (b ≠ [] ∧ '/' ∉ b ∧ '\n' ∉ n ∧
        (rest = b ++ '/' :: n ∨ rest = b ++ '/' :: (n ++ ['\n']))) := by
  constructor
  · intro h
    cases hs : splitAtSlash rest with
    | none => rw [parseAfterScheme, hs] at h; cases h
    | some p =>
      obtain ⟨b', r⟩ := p
      simp only [parseAfterScheme, hs] at h
      by_cases hb : b' = []
      · rw [if_pos hb] at h; cases h
      · rw [if_neg hb] at h
        cases hd : dropFinalNewline r with
        | none => rw [hd] at h; cases h
        | some n' =>
          rw [hd] at h
          injection h with h
          injection h with h1 h2
          subst h1; subst h2
          obtain ⟨hsl, hrest⟩ := splitAtSlash_sound rest b' r hs
          obtain ⟨hnl, hcase⟩ := dropFinalNewline_sound r n' hd
          refine ⟨hb, hsl, hnl, ?_⟩
          cases hcase with
          | inl he => exact Or.inl (by rw [hrest, he])
          | inr he => exact Or.inr (by rw [hrest, he])
  · rintro ⟨hb, hsl, hnl, hcase | hcase⟩ <;> subst hcase
    · simp only [parseAfterScheme, splitAtSlash_complete b n hsl, if_neg hb,
        dropFinalNewline_of_no_newline n hnl, Option.map_some']
    · simp only [parseAfterScheme, splitAtSlash_complete b (n ++ ['\n']) hsl, if_neg hb,
        dropFinalNewline_trailing n hnl, Option.map_some']

theorem parseGcsChars_iff (cs b n : List Char) :
    parseGcsChars cs = some (b, n) ↔
      (b ≠ [] ∧ '/' ∉ b ∧ '\n' ∉ n ∧
        (cs = gsScheme ++ b ++ '/' :: n ∨ cs = gsScheme ++ b ++ '/' :: (n ++ ['\n']))) := by
  rcases cs with _ | ⟨c1, _ | ⟨c2, _ | ⟨c3, _ | ⟨c4, _ | ⟨c5, rest⟩⟩⟩⟩⟩
  · simp [parseGcsChars, gsScheme]
  · simp [parseGcsChars, gsScheme]
  · simp [parseGcsChars, gsScheme]
  · simp [parseGcsChars, gsScheme]
  · simp [parseGcsChars, gsScheme]
  · by_cases hsch : [c1, c2, c3, c4, c5] = gsScheme
    · simp only [gsScheme, List.cons.injEq, and_true] at hsch
      obtain ⟨h1, h2, h3, h4, h5⟩ := hsch
      subst h1; subst h2; subst h3; subst h4; subst h5
      rw [show parseGcsChars ('g' :: 's' :: ':' :: '/' :: '/' :: rest) = parseAfterScheme rest
        from by rw [parseGcsChars, if_pos (show ['g', 's', ':', '/', '/'] = gsScheme from rfl)]]
      rw [parseAfterScheme_iff]
      simp [gsScheme]
    · rw [show parseGcsChars (c1 :: c2 :: c3 :: c4 :: c5 :: rest) = none
        from by rw [parseGcsChars, if_neg hsch]]
      constructor
      · intro h; cases h
      · rintro ⟨_, _, _, hcase | hcase⟩ <;>
          (simp only [gsScheme, List.cons_append, List.cons.injEq] at hcase;
           exact (hsch (by simp [gsScheme, hcase.1, hcase.2.1, hcase.2.2.1,
             hcase.2.2.2.1, hcase.2.2.2.2.1])).elim)

theorem lookup_nil (k : String) : lookup [] k = none := rfl

theorem normalizeResult_wfEntry (stor : Storage) (t l : Option String)
    (s : Option (List String)) (a g : Option (List (Option String × Option Int))) :
    normalizeResult stor (wfEntry t l s a g) =
      some { title := t, link := l, snippets := s,
             extractive_answers := Option.map (List.map toSpan) a,
             extractive_segments := Option.map (List.map toSpan) g,
             metadata := tryGetMetadata stor (Option.map SVal.str l) } := by
  have hsnip : ∀ x : String, (fun e => svGet e "snippet") (snippetEntry x) = some (SVal.str x) :=
    fun x => rfl
  have hstr : ∀ x : String, strOnly (SVal.str x) = some (id x) := fun x => rfl
  cases t <;> cases l <;> cases s <;> cases a <;> cases g <;>
    simp [normalizeResult, wfEntry, optField, lookup_cons, lookup_nil,
      extract_snippets, extract_answers_segments, iterElems, validStrOpt, validStrList,
      tryGetMetadata,
      mapO_map_some snippetEntry (fun e => svGet e "snippet") SVal.str hsnip,
      mapO_map_some SVal.str strOnly id hstr,
      mapO_map_some spanEntry (fun e => mkSpan (svGet e "content") (svGet e "pageNumber"))
        toSpan mkSpan_spanEntry]

/-! ## Claim theorems -/

/-- Claim C1, counterexample: the configuration the code builds (with both
extractive toggles off and any query) does not satisfy the default table of
section 4.1 — the code pins `summary_result_count` to 5 (not 3),
`page_size` to 10 (not 3) and the extractive counts to 0 or 5 (not 3). -/
theorem claim_C1_counterexample :
    ¬ specDefaultTable (buildSearchConfig false false "q") := by
  intro h
  exact absurd h.1 (by simp [buildSearchConfig])

/-- Claim C1, amended: for every client request the built configuration's
tunables are fixed constants (the request body carries only the query):
`summary_result_count` 5, `include_citations` false,
`ignore_adversarial_query` true, `ignore_non_summary_seeking_query` true,
`return_snippet` true, `return_extractive_segment_score` true,
`max_extractive_answer_count` 5 when extractive answers are enabled else 0,
`max_extractive_segment_count` 5 when extractive segments are enabled else
0, `num_previous_segments` 0, `num_next_segments` 0, `page_size` 10. -/
theorem claim_C1_amended (ea es : Bool) (q : String) :
    (buildSearchConfig ea es q).summary_result_count = 5 ∧
    (buildSearchConfig ea es q).include_citations = false ∧
    (buildSearchConfig ea es q).ignore_adversarial_query = true ∧
    (buildSearchConfig ea es q).ignore_non_summary_seeking_query = true ∧
    (buildSearchConfig ea es q).return_snippet = true ∧
    (buildSearchConfig ea es q).return_extractive_segment_score = true ∧
    (buildSearchConfig ea es q).max_extractive_answer_count = (if ea then 5 else 0) ∧
    (buildSearchConfig ea es q).max_extractive_segment_count = (if es then 5 else 0) ∧
    (buildSearchConfig ea es q).num_previous_segments = 0 ∧
    (buildSearchConfig ea es q).num_next_segments = 0 ∧
    (buildSearchConfig ea es q).page_size = 10 := by
  cases ea <;> cases es <;> simp [buildSearchConfig]

/-- Claim C2: for a raw entry missing any subset of the five derived
fields (each present field well-formed), normalization succeeds and yields
a document with exactly the missing fields absent and every present field
mapped to its extracted value; moreover each field's extraction depends
only on its own key's looked-up value, so a failure extracting one field
cannot change the result of extracting any other field. -/
theorem claim_C2 :
    (∀ (stor : Storage) (t l : Option String) (s : Option (List String))
       (a g : Option (List (Option String × Option Int))),
      normalizeResult stor (wfEntry t l s a g) =
        some { title := t, link := l, snippets := s,
               extractive_answers := Option.map (List.map toSpan) a,
               extractive_segments := Option.map (List.map toSpan) g,
               metadata := tryGetMetadata stor (Option.map SVal.str l) }) ∧
    (∀ d d' : RawData, lookup d "snippets" = lookup d' "snippets" →
       extract_snippets d = extract_snippets d') ∧
    (∀ (d d' : RawData) (f : String), lookup d f = lookup d' f →
       extract_answers_segments d f = extract_answers_segments d' f) := by
  refine ⟨normalizeResult_wfEntry, ?_, ?_⟩
  · intro d d' h
    rw [extract_snippets, extract_snippets, h]
  · intro d d' f h
    rw [extract_answers_segments, extract_answers_segments, h]

/-- Claim C2, witness: a concrete instance of the independence clause. -/
theorem claim_C2_witness :
    extract_snippets [("snippets", SVal.null)] =
      extract_snippets [("other", SVal.num 0), ("snippets", SVal.null)] :=
  claim_C2.2.1 [("snippets", SVal.null)] [("other", SVal.num 0), ("snippets", SVal.null)] rfl

/-- Claim C3: in every extractive sub-entry the keys `content` and
`pageNumber` are extracted independently and a sub-entry missing either
key is retained with that member absent; in particular
`{"content":"x","pageNumber":2}` yields `{content:"x", page_number:2}`
and `{"content":"x"}` yields `{content:"x", page_number: absent}`. -/
theorem claim_C3 :
    (∀ (field : String) (ps : List (Option String × Option Int)),
      extract_answers_segments [(field, SVal.arr (ps.map spanEntry))] field =
        some (ps.map toSpan)) ∧
    extract_answers_segments
        [("extractive_answers", SVal.arr
          [SVal.obj [("content", SVal.str "x"), ("pageNumber", SVal.num 2)],
           SVal.obj [("content", SVal.str "x")]])] "extractive_answers" =
      some [{ content := some "x", page_number := some 2 },
            { content := some "x", page_number := none }] ∧
    extract_answers_segments
        [("extractive_segments", SVal.arr [SVal.obj [("content", SVal.str "x")]])]
        "extractive_segments" =
      some [{ content := some "x", page_number := none }] := by
  refine ⟨?_, rfl, rfl⟩
  intro field ps
  simp [extract_answers_segments, lookup_cons, iterElems,
    mapO_map_some spanEntry (fun e => mkSpan (svGet e "content") (svGet e "pageNumber"))
      toSpan mkSpan_spanEntry]

/-- Claim C4, counterexample: a snippets collection that is present and
iterable (a two-element list) but whose second sub-entry lacks the
`"snippet"` key makes the whole normalized snippets field absent, because
the code has no per-sub-entry exception handling inside
`extract_snippets`. -/
theorem claim_C4_counterexample :
    lookup exC4 "snippets" = some (SVal.arr [snippetEntry "a", SVal.obj []]) ∧
    iterElems (SVal.arr [snippetEntry "a", SVal.obj []]) =
      some [snippetEntry "a", SVal.obj []] ∧
    extract_snippets exC4 = none ∧
    normalizeResult stor0 exC4 =
      some { title := none, link := none, snippets := none,
             extractive_answers := none, extractive_segments := none, metadata := none } :=
  ⟨rfl, rfl, rfl, rfl⟩

/-- Claim C4, amended: the normalized snippets field is absent when the
snippets collection is missing or malformed, and also when any sub-entry
of a well-formed collection fails `"snippet"` extraction (the failure
aborts the whole field); when every sub-entry is a map containing
`"snippet"`, the field is present with the texts in order. -/
theorem claim_C4_amended :
    (∀ ss : List String,
      extract_snippets [("snippets", SVal.arr (ss.map snippetEntry))] =
        some (ss.map SVal.str)) ∧
    (∀ (pre : List String) (post : List SVal),
      extract_snippets
        [("snippets", SVal.arr (pre.map snippetEntry ++ SVal.obj [] :: post))] = none) ∧
    (∀ d : RawData, lookup d "snippets" = none → extract_snippets d = none) := by
  have hsnip : ∀ x : String, (fun e => svGet e "snippet") (snippetEntry x) = some (SVal.str x) :=
    fun x => rfl
  refine ⟨?_, ?_, ?_⟩
  · intro ss
    simp [extract_snippets, lookup_cons, iterElems,
      mapO_map_some snippetEntry (fun e => svGet e "snippet") SVal.str hsnip]
  · intro pre post
    rw [show extract_snippets
          [("snippets", SVal.arr (pre.map snippetEntry ++ SVal.obj [] :: post))] =
        mapO (pre.map snippetEntry ++ SVal.obj [] :: post) (fun e => svGet e "snippet")
      from rfl]
    exact mapO_none_of_mem _
      (List.mem_append_right _ (List.mem_cons_self _ _)) rfl
  · intro d h
    rw [extract_snippets, h]

/-- Claim C4, amended, witness: a missing snippets collection gives an
absent field. -/
theorem claim_C4_amended_witness : extract_snippets [] = none :=
  claim_C4_amended.2.2 [] rfl

/-- Claim C5: the link `gs://bucket1/path/to/obj.txt` parses to bucket
`bucket1` and object-key `path/to/obj.txt`; for every link that does not
match the URI pattern, `get_metadata` resolves to absent and document
processing still produces the document (no exception escapes). -/
theorem claim_C5 :
    parse_gcs_uri "gs://bucket1/path/to/obj.txt" = some ("bucket1", "path/to/obj.txt") ∧
    (∀ (stor : Storage) (link : String), parse_gcs_uri link = none →
       get_metadata stor link = none) ∧
    (∀ (stor : Storage) (link : String), parse_gcs_uri link = none →
       normalizeResult stor [("link", SVal.str link)] =
         some { title := none, link := some link, snippets := none,
                extractive_answers := none, extractive_segments := none,
                metadata := none }) := by
  refine ⟨by decide, ?_, ?_⟩
  · intro stor link h
    rw [get_metadata, h]
  · intro stor link h
    simp [normalizeResult, lookup_cons, lookup_nil, extract_snippets,
      extract_answers_segments, validStrOpt, validStrList, tryGetMetadata,
      get_metadata, h]

/-- Claim C5, witness: a non-matching link at a concrete input. -/
theorem claim_C5_witness : get_metadata stor0 "http://bucket/x" = none :=
  claim_C5.2.1 stor0 "http://bucket/x" (by decide)

/-- Claim C6: every failure inside the metadata enricher — absent link,
non-string link, invalid URI, failed storage lookup — resolves that
document's metadata to absent; the other five fields of the document do
not depend on the storage collaborator at all, and each document of the
handler's sequence is computed from its own raw entry only. -/
theorem claim_C6 :
    (∀ stor : Storage, tryGetMetadata stor none = none) ∧
    (∀ (stor : Storage) (v : SVal), (∀ s, v ≠ SVal.str s) →
       tryGetMetadata stor (some v) = none) ∧
    (∀ (stor : Storage) (s : String), parse_gcs_uri s = none →
       tryGetMetadata stor (some (SVal.str s)) = none) ∧
    (∀ (stor : Storage) (s b n : String), parse_gcs_uri s = some (b, n) → stor b n = none →
       tryGetMetadata stor (some (SVal.str s)) = none) ∧
    (∀ (stor stor' : Storage) (data : RawData),
       Option.map stripMeta (normalizeResult stor data) =
         Option.map stripMeta (normalizeResult stor' data)) ∧
    (∀ (stor : Storage) (results : List RawData) (docs : List Document),
       mapO results (normalizeResult stor) = some docs →
       ∀ (i : Nat) (hi : i < results.length) (hd : i < docs.length),
         normalizeResult stor (results.get ⟨i, hi⟩) = some (docs.get ⟨i, hd⟩)) := by
  refine ⟨fun stor => rfl, ?_, ?_, ?_, ?_, ?_⟩
  · intro stor v hv
    cases v with
    | str s => exact absurd rfl (hv s)
    | null => rfl
    | num m => rfl
    | arr xs => rfl
    | obj fs => rfl
  · intro stor s h
    simp [tryGetMetadata, get_metadata, h]
  · intro stor s b n hp hs
    simp [tryGetMetadata, get_metadata, hp, hs]
  · intro stor stor' data
    rw [normalizeResult, normalizeResult]
    cases validStrOpt (lookup data "title") <;>
      cases validStrOpt (lookup data "link") <;>
        cases validStrList (extract_snippets data) <;>
          simp [stripMeta]
  · intro stor results docs h i hi hd
    exact mapO_get _ results docs h i hi hd

/-- Claim C6, witness: an invalid URI at a concrete input resolves
metadata to absent. -/
theorem claim_C6_witness : tryGetMetadata stor0 (some (SVal.str "not-a-uri")) = none :=
  claim_C6.2.2.1 stor0 "not-a-uri" (by decide)

/-- Claim C7: whenever the handler succeeds, its document sequence has
the same length as the raw result sequence and the document at position i
is the normalization of result entry i; no field's absence drops a
sibling field or a sibling document. -/
theorem claim_C7 (stor : Storage) (results : List RawData) (summaryOutcome : Option String)
    (resp : Response) (h : search stor results summaryOutcome = some resp) :
    ∃ docs : List Document, resp.documents = some docs ∧
      docs.length = results.length ∧
      ∀ (i : Nat) (hi : i < results.length) (hd : i < docs.length),
        normalizeResult stor (results.get ⟨i, hi⟩) = some (docs.get ⟨i, hd⟩) := by
  rw [search] at h
  cases hm : mapO results (normalizeResult stor) with
  | none => rw [hm] at h; cases h
  | some docs =>
    rw [hm] at h
    injection h with h
    subst h
    exact ⟨docs, rfl, mapO_length _ results docs hm,
      fun i hi hd => mapO_get _ results docs hm i hi hd⟩

/-- Claim C7, witness: the theorem applied to a concrete one-entry
result sequence. -/
theorem claim_C7_witness :
    ∃ docs : List Document, (Response.mk none (some [doc0])).documents = some docs ∧
      docs.length = [entry0].length ∧
      ∀ (i : Nat) (hi : i < [entry0].length) (hd : i < docs.length),
        normalizeResult stor0 ([entry0].get ⟨i, hi⟩) = some (docs.get ⟨i, hd⟩) :=
  claim_C7 stor0 [entry0] none (Response.mk none (some [doc0])) rfl

/-- Claim C8: a search call that succeeds with zero result entries and no
aggregate summary assembles `Response{summary: absent, documents: []}`,
with the document sequence empty rather than absent. -/
theorem claim_C8 (stor : Storage) :
    search stor [] none = some { summary := none, documents := some [] } := rfl

/-- Claim C9: the snippets collection `[{"snippet":"a"},{"snippet":"b"}]`
normalizes to the ordered sequence `["a","b"]`, and in general snippet
extraction maps each sub-entry to its `"snippet"` text in collection
order. -/
theorem claim_C9 :
    (∀ stor : Storage,
      normalizeResult stor [("snippets", SVal.arr [snippetEntry "a", snippetEntry "b"])] =
        some { title := none, link := none, snippets := some ["a", "b"],
               extractive_answers := none, extractive_segments := none,
               metadata := none }) ∧
    (∀ ss : List String,
      extract_snippets [("snippets", SVal.arr (ss.map snippetEntry))] =
        some (ss.map SVal.str)) := by
  have hsnip : ∀ x : String, (fun e => svGet e "snippet") (snippetEntry x) = some (SVal.str x) :=
    fun x => rfl
  refine ⟨fun stor => rfl, ?_⟩
  intro ss
  simp [extract_snippets, lookup_cons, iterElems,
    mapO_map_some snippetEntry (fun e => svGet e "snippet") SVal.str hsnip]

/-- Claim C10, counterexample: the string `"gs://b/x\ny"` is of the form
`gs://<bucket>/<rest>` with a nonempty slash-free bucket, yet
`parse_gcs_uri` rejects it: Python's `.` does not match a newline and `$`
only matches at the end or before one final trailing newline, so `<rest>`
may not contain an interior newline. -/
theorem claim_C10_counterexample :
    (∃ b r : String, b.data ≠ [] ∧ '/' ∉ b.data ∧
      "gs://b/x\ny" = "gs://" ++ b ++ "/" ++ r) ∧
    parse_gcs_uri "gs://b/x\ny" = none :=
  ⟨⟨"b", "x\ny", by decide, by decide, by decide⟩, by decide⟩

/-- Claim C10, amended: `parse_gcs_uri` succeeds exactly on strings of
the form `gs://<bucket>/<rest>` optionally followed by one final newline,
where `<bucket>` is non-empty and slash-free and `<rest>` is
newline-free and may be empty (a final newline is not part of the
returned object-key); every other input raises `ValueError`, including
any other scheme and the slash-less `gs://bucket`, while `gs://bucket/`
parses to bucket `bucket` and empty object-key. -/
theorem claim_C10_amended :
    (∀ (uri b n : String), parse_gcs_uri uri = some (b, n) ↔
      (b.data ≠ [] ∧ '/' ∉ b.data ∧ '\n' ∉ n.data ∧
        (uri.data = gsScheme ++ b.data ++ '/' :: n.data ∨
         uri.data = gsScheme ++ b.data ++ '/' :: (n.data ++ ['\n'])))) ∧
    parse_gcs_uri "gs://bucket" = none ∧
    parse_gcs_uri "http://bucket/x" = none ∧
    parse_gcs_uri "gs://bucket/" = some ("bucket", "") := by
  refine ⟨?_, by decide, by decide, by decide⟩
  intro uri b n
  rw [parse_gcs_uri]
  constructor
  · intro h
    cases hp : parseGcsChars uri.data with
    | none => rw [hp] at h; cases h
    | some p =>
      obtain ⟨p1, p2⟩ := p
      rw [hp] at h
      injection h with h
      injection h with h1 h2
      subst h1; subst h2
      simpa using (parseGcsChars_iff uri.data p1 p2).mp hp
  · intro hc
    have hp : parseGcsChars uri.data = some (b.data, n.data) :=
      (parseGcsChars_iff uri.data b.data n.data).mpr hc
    rw [hp]
    rfl

/-- Claim C10, amended, witness: the characterization applied at a
concrete URI. -/
theorem claim_C10_amended_witness : parse_gcs_uri "gs://a/b" = some ("a", "b") :=
  (claim_C10_amended.1 "gs://a/b" "a" "b").mpr
    ⟨by decide, by decide, by decide, Or.inl (by decide)⟩

end VSearch
